import Mathlib

/-!
Verification of the Monkey interpreter fragment: the runtime object model
(`object/object.go`), the environment (`object/environment.go`), the builtin
functions (`evaluator/builtins.go`) and the REPL loop (`repl.go`).

Go machine integers (`int64`, `uint64`) are modelled as `Int`/`Nat` with
explicit reduction modulo `2 ^ 64` where conversion or overflow matters.
Go strings are modelled as Lean `String`; the byte length of a Go string is
the length of its UTF-8 encoding (`String.utf8ByteSize`).
-/

namespace Monkey

/-- Object type tags, from the const block of `object.go`.  Only tags of the
variants modelled below are needed. -/
def INTEGER_OBJ : String := "INTEGER"

def BOOLEAN_OBJ : String := "BOOLEAN"

def NULL_OBJ : String := "NULL"

def ERROR_OBJ : String := "ERROR"

def STRING_OBJ : String := "STRING"

def ARRAY_OBJ : String := "ARRAY"

/-- Runtime value: the `Object` interface of `object.go` as a tagged union.
`Integer` holds an `int64` (modelled as `Int`), `Array` an ordered sequence of
Objects, `Error` a message.  The Go variants `Function`, `Builtin`,
`ReturnValue` and `Hash` are not constructed by any property verified here;
the builtins' type switches send every unmatched variant to the same default
branch, which the variants below already exercise. -/
inductive Object where
  | integer (value : Int)
  | boolean (value : Bool)
  | str (value : String)
  | nullv
  | array (elements : List Object)
  | error (message : String)

/-- The `Type()` method of each Object variant (`object.go`). -/
def Object.type : Object → String
  | .integer _ => INTEGER_OBJ
  | .boolean _ => BOOLEAN_OBJ
  | .str _ => STRING_OBJ
  | .nullv => NULL_OBJ
  | .array _ => ARRAY_OBJ
  | .error _ => ERROR_OBJ

mutual

/-- The `Inspect()` method of each Object variant (`object.go`): Integer via
`%d`, Boolean via `%t`, String raw, Null as `null`, Array as the
comma-space-joined element inspections in brackets, Error with the
`ERROR: ` prefix. -/
def Object.inspect : Object → String
  | .integer i => toString i
  | .boolean b => if b then "true" else "false"
  | .str s => s
  | .nullv => "null"
  | .array es => "[" ++ String.intercalate ", " (Object.inspectList es) ++ "]"
  | .error m => "ERROR: " ++ m

/-- Element-wise `Inspect` of an Array's elements (the loop in
`(*Array).Inspect`). -/
def Object.inspectList : List Object → List String
  | [] => []
  | o :: os => Object.inspect o :: Object.inspectList os

end

/-- Recogniser for the Error variant. -/
def Object.isError : Object → Bool
  | .error _ => true
  | _ => false

/-- Recogniser for the Array variant. -/
def Object.isArray : Object → Bool
  | .array _ => true
  | _ => false

/-- Recogniser for the String variant. -/
def Object.isStr : Object → Bool
  | .str _ => true
  | _ => false

/-- `environment.go`: the `Environment` struct.  Its only field is the local
`store`, a Go map from name to Object, modelled as its lookup function.
The struct declares no other field — in particular no reference to an
enclosing environment. -/
structure Environment where
  store : String → Option Object

/-- `environment.go` `NewEnvironment`: an empty store. -/
def NewEnvironment : Environment := ⟨fun _ => none⟩

/-- `environment.go` `Get`: the single map lookup `o, ok := e.store[name]`,
returned as the pair `(o, ok)`. -/
def Environment.get (e : Environment) (name : String) : Option Object × Bool :=
  match e.store name with
  | some o => (some o, true)
  | none => (none, false)

/-- `environment.go` `Set`: `e.store[name] = val; return val`.  The Go method
mutates the receiver; the updated environment is returned alongside the
method's return value. -/
def Environment.set (e : Environment) (name : String) (val : Object) :
    Environment × Object :=
  ({ store := fun m => if m = name then some val else e.store m }, val)

/-- Modelled from the spec, for comparison with the source `Environment`:
"a mapping from name to Object plus an optional reference to an enclosing
(outer) Environment, forming a singly-linked chain".  The source struct in
`environment.go` has no outer field, so this type is strictly richer. -/
inductive SpecEnvironment where
  | mk (store : List (String × Object)) (outer : Option SpecEnvironment)

/-- Modelled from the spec: `Get` "walks the local store then the outer chain
recursively" until found or the chain is exhausted. -/
def SpecEnvironment.get : SpecEnvironment → String → Option Object × Bool
  | .mk store (some out), name =>
    match store.lookup name with
    | some o => (some o, true)
    | none => out.get name
  | .mk store none, name =>
    match store.lookup name with
    | some o => (some o, true)
    | none => (none, false)

/-- The canonical NULL object (`evaluator` package). -/
def NULL : Object := Object.nullv

/-- `builtins.go` `puts`: always returns NULL (the printing side effect is
modelled separately by `putsOutput`). -/
def putsFn (_ : List Object) : Object := NULL

/-- The lines printed by `puts`: `fmt.Println(arg.Inspect())` writes each
argument's inspection followed by a newline. -/
def putsOutput (args : List Object) : List String :=
  args.map (fun a => a.inspect ++ "\n")

/-- `builtins.go` `len`: one argument; a String yields `int64(len(arg.Value))`
(the byte length of the Go string, i.e. of its UTF-8 encoding), an Array
yields its element count, anything else an Error.  Wrong arity yields an
Error. -/
def lenFn : List Object → Object
  | [arg] =>
    match arg with
    | .str s => .integer (s.utf8ByteSize : Int)
    | .array es => .integer (es.length : Int)
    | _ => .error ("argument to `len` not supported, got " ++ arg.type)
  | args =>
    .error ("wrong number of arguments. got=" ++ toString args.length ++ ", want=1")

/-- `builtins.go` `first`: one Array argument; NULL when the array is empty,
otherwise element 0.  The emptiness guard carries the bound for the access,
mirroring `if len(arg.Elements) == 0 ... return arg.Elements[0]`. -/
def firstFn : List Object → Object
  | [arg] =>
    match arg with
    | .array es =>
      if h : es.length = 0 then NULL
      else es.get ⟨0, Nat.pos_of_ne_zero h⟩
    | _ => .error ("argument to `first` must be ARRAY, got " ++ arg.type)
  | args =>
    .error ("wrong number of arguments. got=" ++ toString args.length ++ ". want=1")

/-- `builtins.go` `last`: one Array argument; NULL when
`len(arg.Elements) <= 0`, otherwise element `len-1`, the guard again carrying
the bound for the access. -/
def lastFn : List Object → Object
  | [arg] =>
    match arg with
    | .array es =>
      if h : es.length ≤ 0 then NULL
      else es.get ⟨es.length - 1, by omega⟩
    | _ => .error ("argument to `last` must be ARRAY, got " ++ arg.type)
  | args =>
    .error ("wrong number of arguments. got=" ++ toString args.length ++ ". want=1")

/-- `builtins.go` `rest`: one Array argument; NULL when empty, otherwise a new
Array holding the elements from index 1 on (`make` of size `length-1` filled
by `copy` from `arg.Elements[1:]`). -/
def restFn : List Object → Object
  | [arg] =>
    match arg with
    | .array es =>
      if es.length ≤ 0 then NULL
      else .array (es.drop 1)
    | _ => .error ("argument to `rest` must be ARRAY, got " ++ arg.type)
  | args =>
    .error ("wrong number of arguments. got=" ++ toString args.length ++ ". want=1")

/-- `builtins.go` `push`: two arguments, the first an Array; returns a new
Array holding the old elements (`make` of size `length+1` filled by `copy`)
followed by the second argument at index `length`. -/
def pushFn : List Object → Object
  | [arg, x] =>
    match arg with
    | .array es => .array (es ++ [x])
    | _ => .error ("argument to `push` must be ARRAY, got " ++ arg.type)
  | args =>
    .error ("wrong number of arguments. got=" ++ toString args.length ++ ". want=2")

/-- The registered builtin table of `builtins.go`, in source order. -/
def builtins : List (String × (List Object → Object)) :=
  [("puts", putsFn), ("len", lenFn), ("first", firstFn), ("last", lastFn),
   ("rest", restFn), ("push", pushFn)]

/-- A heap of Go slices, for stating that `push` does not mutate its argument:
an Array's backing slice lives at an index of the heap, and `make` allocates a
fresh slot. -/
structure SliceHeap where
  slices : List (List Object)

/-- Allocation (`make`): the fresh slice is appended to the heap and its index
returned. -/
def SliceHeap.alloc (h : SliceHeap) (s : List Object) : SliceHeap × Nat :=
  ({ slices := h.slices ++ [s] }, h.slices.length)

/-- `builtins.go` `push` with the slice allocation explicit: read the argument
slice at reference `r`, allocate a fresh slice (`make([]object.Object,
length+1)`), fill it by `copy` and a single write at index `length`, and
return a reference to the fresh slice.  No write ever targets the slice at
`r`.  A dangling reference yields `none`. -/
def SliceHeap.push (h : SliceHeap) (r : Nat) (x : Object) :
    SliceHeap × Option Nat :=
  match h.slices.get? r with
  | some elems =>
    let alloced := h.alloc (elems ++ [x])
    (alloced.1, some alloced.2)
  | none => (h, none)

/-- The 64-bit FNV-1a offset basis (`hash/fnv`). -/
def fnvOffsetBasis : Nat := 14695981039346656037

/-- The 64-bit FNV prime (`hash/fnv`). -/
def fnvPrime : Nat := 1099511628211

/-- 64-bit FNV-1a over a byte sequence: starting from the offset basis, each
byte is XORed in and the result multiplied by the FNV prime modulo `2 ^ 64`
(`h.Write` followed by `h.Sum64` in `(*String).HashKey`). -/
def fnv1a64 (bs : List Nat) : Nat :=
  bs.foldl (fun h b => ((h ^^^ b) * fnvPrime) % 2 ^ 64) fnvOffsetBasis

/-- The bytes of a Go string: the UTF-8 encoding of its text
(`[]byte(s.Value)`). -/
def utf8Bytes (s : String) : List Nat :=
  s.toUTF8.data.toList.map UInt8.toNat

/-- `object.go` `HashKey`: a type tag (field `Type` in Go, a Lean keyword,
hence `objType` here) and a `uint64` hash value, modelled as a `Nat` below
`2 ^ 64`. -/
structure HashKey where
  objType : String
  value : Nat
deriving DecidableEq

/-- `object.go` `(*String).HashKey`: the STRING tag and the 64-bit FNV-1a hash
of the string's bytes. -/
def stringHashKey (value : String) : HashKey :=
  { objType := STRING_OBJ, value := fnv1a64 (utf8Bytes value) }

/-- `object.go` `(*Boolean).HashKey`: the BOOLEAN tag and 1 for true, 0 for
false. -/
def booleanHashKey (value : Bool) : HashKey :=
  { objType := BOOLEAN_OBJ, value := if value then 1 else 0 }

/-- Go's `uint64(v)` for `v : int64`: two's-complement reinterpretation,
i.e. reduction modulo `2 ^ 64`. -/
def int64ToUInt64 (v : Int) : Nat := (v % 2 ^ 64).toNat

/-- `object.go` `(*Integer).HashKey`: the INTEGER tag and the direct
`uint64` reinterpretation of the value. -/
def integerHashKey (value : Int) : HashKey :=
  { objType := INTEGER_OBJ, value := int64ToUInt64 value }

/-- The `Hashable` interface of `object.go`: Integer, Boolean and String
implement `HashKey()`; the other variants do not. -/
def hashKeyOf : Object → Option HashKey
  | .integer v => some (integerHashKey v)
  | .boolean b => some (booleanHashKey b)
  | .str s => some (stringHashKey s)
  | _ => none

/-- `repl.go` `PROMPT`. -/
def PROMPT : String := ">>"

/-- `repl.go` `MONKEY_FACE` (apostrophes written as `\x27`). -/
def MONKEY_FACE : String :=
  "            __,__\n   .--.  .-\"     \"-.  .--.\n  / .. \\/  .-. .-.  \\/ .. \\\n | |  \x27|  /   Y   \\  |\x27  | |\n | \\   \\  \\ 0 | 0 /  /   / |\n  \\ \x27- ,\\.-\"\"\"\"\"\"\"-./, -\x27 /\n   \x27\x27-\x27 /_   ^ ^   _\\ \x27-\x27\x27\n       |  \\._   _./  |\n       \\   \\ \x27~\x27 /   /\n        \x27._ \x27-=-\x27 _.\x27\n           \x27-----\x27\n"

/-- `repl.go` `printParserErrors`: the monkey face, two header lines, then one
tab-indented line per recorded parser error. -/
def printParserErrors (errors : List String) : String :=
  MONKEY_FACE ++ "Whoos! We ran into some monkey business here!\n"
    ++ " parser errors:\n"
    ++ String.join (errors.map (fun e => "\t" ++ e ++ "\n"))

/-- One iteration of the loop in `repl.go` `Start`, over one input line.  The
lexer/parser pipeline (`lexer.New`, `parser.New`, `ParseProgram`, `Errors`) is
not part of the sources and is abstracted as `parse`, applied to the current
line alone — a fresh lexer and parser per line, no parser state across lines.
The evaluator (`evaluator.Eval`) is abstracted as `eval`; it may update the
environment, and returns `none` when the Go result is nil (an absent value).
The state is the session environment plus the text written to `out` so far:
the prompt is printed, the line parsed; on parser errors the error report is
printed and evaluation skipped (`continue`); otherwise the program is
evaluated against the session environment and, when a result is present, its
inspection and a newline are written. -/
def replLine {Program : Type} (parse : String → Program × List String)
    (eval : Program → Environment → Option Object × Environment)
    (st : Environment × String) (line : String) : Environment × String :=
  let prompted := st.2 ++ PROMPT
  let parsed := parse line
  if parsed.2 ≠ [] then
    (st.1, prompted ++ printParserErrors parsed.2)
  else
    let evaluated := eval parsed.1 st.1
    match evaluated.1 with
    | some o => (evaluated.2, prompted ++ o.inspect ++ "\n")
    | none => (evaluated.2, prompted)

/-- `repl.go` `Start` over a finite list of input lines: a single Environment
is created once (`object.NewEnvironment()`) before the loop and threaded
through every line. -/
def replStart {Program : Type} (parse : String → Program × List String)
    (eval : Program → Environment → Option Object × Environment)
    (lines : List String) : Environment × String :=
  lines.foldl (replLine parse eval) (NewEnvironment, "")

/-- A concrete parse function for exercising the REPL model on explicit
inputs: a program is the line's text, and the line "bad" accumulates one
parser error. -/
def stubParse (line : String) : String × List String :=
  (line, if line = "bad" then ["expected next token to be =, got ILLEGAL instead"] else [])

/-- A concrete evaluator for exercising the REPL model on explicit inputs:
a program evaluates to the String object of its text, and the binding "last"
is written into the session environment. -/
def stubEval (program : String) (env : Environment) :
    Option Object × Environment :=
  (some (Object.str program), (env.set "last" (Object.str program)).1)

/-- A second concrete evaluator, observably different from `stubEval`, for
exercising that a line with parser errors is not evaluated. -/
def stubEval2 (_ : String) (env : Environment) :
    Option Object × Environment :=
  (none, env)

/-! ## Helper lemmas -/

/-- `String.utf8ByteSize.go` is the sum of the per-character UTF-8 sizes. -/
theorem utf8ByteSize_go_eq (l : List Char) :
    String.utf8ByteSize.go l = (l.map Char.utf8Size).sum := by
  induction l with
  | nil => rfl
  | cons c cs ih =>
    rw [String.utf8ByteSize.go, ih, List.map_cons, List.sum_cons]
    omega

/-- The byte length of a string is the sum of its characters' UTF-8 sizes. -/
theorem utf8ByteSize_eq_sum (s : String) :
    s.utf8ByteSize = (s.data.map Char.utf8Size).sum := by
  cases s with
  | mk l => simpa [String.utf8ByteSize] using utf8ByteSize_go_eq l

/-- A character list is no longer than the sum of its UTF-8 sizes. -/
theorem length_le_utf8_sum (l : List Char) :
    l.length ≤ (l.map Char.utf8Size).sum := by
  induction l with
  | nil => simp
  | cons x xs ih =>
    simp only [List.map_cons, List.sum_cons, List.length_cons]
    have := x.utf8Size_pos
    omega

/-- A character list containing a multi-byte character is strictly shorter
than the sum of its UTF-8 sizes. -/
theorem length_lt_utf8_sum (l : List Char) (h : ∃ c ∈ l, 1 < c.utf8Size) :
    l.length < (l.map Char.utf8Size).sum := by
  induction l with
  | nil => simp at h
  | cons d ds ih =>
    obtain ⟨c, hc, hsz⟩ := h
    simp only [List.map_cons, List.sum_cons, List.length_cons]
    rcases List.mem_cons.mp hc with h1 | h2
    · subst h1
      have := length_le_utf8_sum ds
      omega
    · have := ih ⟨c, h2, hsz⟩
      have := d.utf8Size_pos
      omega

/-! ## Claims -/

/-- C1, counterexample.  The first conjunct exhibits the behaviour the claim
describes, on the spec's own environment shape: a chain whose local store is
empty but whose outer scope binds `x` resolves `x` through the outer link.
The second conjunct refutes the claim for the source type: `Environment`
holds nothing besides its local `store` — no accessor whatsoever, in
particular no outer-environment accessor, can distinguish two environments
with the same store, so the struct holds no "optional reference to an
enclosing outer Environment" and `Get` has no chain to walk. -/
theorem C1_counterexample :
    SpecEnvironment.get
        (.mk [] (some (.mk [("x", Object.integer 1)] none))) "x" =
      (some (Object.integer 1), true) ∧
    ¬ ∃ outerOf : Environment → Option Environment,
        ∃ e1 e2 : Environment, e1.store = e2.store ∧ outerOf e1 ≠ outerOf e2 := by
  refine ⟨rfl, ?_⟩
  rintro ⟨f, e1, e2, hs, hne⟩
  cases e1
  cases e2
  cases hs
  exact hne rfl

/-- C1 (amended): an `Environment` holds only a local name-to-Object store,
with no reference to an enclosing environment; `Get(name)` is a single lookup
in the local store, returning the stored object with `found = true` when the
name is bound there and `found = false` exactly when it is not. -/
theorem C1_get_searches_local_store_only (e : Environment) (n : String) :
    (e.get n).1 = e.store n ∧ ((e.get n).2 = true ↔ (e.store n).isSome = true) := by
  cases h : e.store n <;> simp [Environment.get, h]

/-- C7: `Set(n, v)` returns `v` itself, and `Get(n)` on the updated
environment returns `(v, true)`; this holds for every prior environment, so
both for a previously unbound `n` (fresh binding) and for a previously bound
`n` (overwrite/shadowing).  The final conjunct states that the write is local:
the store is unchanged at every other name. -/
theorem C7_set_then_get (e : Environment) (n : String) (v : Object) :
    (e.set n v).2 = v ∧
    (e.set n v).1.get n = (some v, true) ∧
    (∀ m : String, m ≠ n → (e.set n v).1.store m = e.store m) := by
  refine ⟨rfl, ?_, ?_⟩
  · simp [Environment.set, Environment.get]
  · intro m hm
    simp [Environment.set, hm]

/-- C7, witness: a fresh binding and an overwrite on a concrete
environment. -/
theorem C7_set_then_get_witness :
    ((NewEnvironment.set "a" (Object.integer 1)).2 = Object.integer 1 ∧
      (NewEnvironment.set "a" (Object.integer 1)).1.get "a" =
        (some (Object.integer 1), true) ∧
      (∀ m : String, m ≠ "a" →
        (NewEnvironment.set "a" (Object.integer 1)).1.store m =
          NewEnvironment.store m)) ∧
    ((NewEnvironment.set "a" (Object.integer 1)).1.set "a" (Object.integer 2)).1.get "a" =
      (some (Object.integer 2), true) :=
  ⟨C7_set_then_get NewEnvironment "a" (Object.integer 1),
    (C7_set_then_get (NewEnvironment.set "a" (Object.integer 1)).1 "a"
      (Object.integer 2)).2.1⟩

/-- C9: `Set(n, v)` leaves the `Get` result of every other name `m`
unchanged. -/
theorem C9_set_frame (e : Environment) (n m : String) (v : Object)
    (hm : m ≠ n) : (e.set n v).1.get m = e.get m := by
  simp [Environment.set, Environment.get, hm]

/-- C9, witness: setting `a` does not disturb `b` on a concrete
environment. -/
theorem C9_set_frame_witness :
    ("b" : String) ≠ "a" ∧
    ((NewEnvironment.set "b" (Object.integer 7)).1.set "a" (Object.integer 1)).1.get "b" =
      (NewEnvironment.set "b" (Object.integer 7)).1.get "b" :=
  ⟨by decide,
    C9_set_frame (NewEnvironment.set "b" (Object.integer 7)).1 "a" "b"
      (Object.integer 1) (by decide)⟩

/-- C2: calling `push` with exactly the two arguments `(a, x)` returns a new
Array whose elements are `a`'s elements in order followed by `x`; and on the
slice heap, the argument's backing slice is unchanged by the call — the
result lives in a freshly allocated slot distinct from the argument's. -/
theorem C2_push_appends_without_mutation (h : SliceHeap) (r : Nat)
    (elems : List Object) (x : Object) (hr : h.slices.get? r = some elems) :
    pushFn [Object.array elems, x] = Object.array (elems ++ [x]) ∧
    (h.push r x).1.slices.get? r = some elems ∧
    ∃ r2 : Nat, (h.push r x).2 = some r2 ∧ r2 ≠ r ∧
      (h.push r x).1.slices.get? r2 = some (elems ++ [x]) := by
  have hr2 : h.slices[r]? = some elems := by
    rw [← List.get?_eq_getElem?]
    exact hr
  have hlt : r < h.slices.length := (List.getElem?_eq_some.mp hr2).1
  refine ⟨rfl, ?_, h.slices.length, ?_, by omega, ?_⟩
  · simp only [SliceHeap.push, hr, SliceHeap.alloc]
    rw [List.get?_eq_getElem?, List.getElem?_append_left hlt]
    exact hr2
  · simp [SliceHeap.push, hr2, SliceHeap.alloc]
  · simp [SliceHeap.push, hr2, SliceHeap.alloc]

/-- C2, witness: `push([1,2],3)` on a concrete one-slice heap. -/
theorem C2_push_witness :
    pushFn [Object.array [Object.integer 1, Object.integer 2], Object.integer 3] =
      Object.array ([Object.integer 1, Object.integer 2] ++ [Object.integer 3]) ∧
    (SliceHeap.push ⟨[[Object.integer 1, Object.integer 2]]⟩ 0
        (Object.integer 3)).1.slices.get? 0 =
      some [Object.integer 1, Object.integer 2] ∧
    ∃ r2 : Nat,
      (SliceHeap.push ⟨[[Object.integer 1, Object.integer 2]]⟩ 0
          (Object.integer 3)).2 = some r2 ∧ r2 ≠ 0 ∧
      (SliceHeap.push ⟨[[Object.integer 1, Object.integer 2]]⟩ 0
          (Object.integer 3)).1.slices.get? r2 =
        some ([Object.integer 1, Object.integer 2] ++ [Object.integer 3]) :=
  C2_push_appends_without_mutation ⟨[[Object.integer 1, Object.integer 2]]⟩ 0
    [Object.integer 1, Object.integer 2] (Object.integer 3) rfl

/-- C6: on a single Array argument, `first` yields the head (NULL when empty),
`last` the final element (NULL when empty), and `rest` a new Array of the
elements with the head removed (NULL when empty). -/
theorem C6_first_last_rest (a : List Object) :
    firstFn [Object.array a] = a.head?.getD NULL ∧
    lastFn [Object.array a] = a.getLast?.getD NULL ∧
    restFn [Object.array a] =
      (match a with | [] => NULL | _ :: t => Object.array t) := by
  cases a with
  | nil => exact ⟨rfl, rfl, rfl⟩
  | cons c t =>
    refine ⟨rfl, ?_, ?_⟩
    · have hne : ¬ (c :: t).length ≤ 0 := by simp
      simp only [lastFn]
      rw [dif_neg hne, List.getLast?_eq_getElem?,
        List.getElem?_eq_getElem (by omega)]
      simp [List.get_eq_getElem]
    · have hne : ¬ (c :: t).length ≤ 0 := by simp
      simp only [restFn]
      rw [if_neg hne]
      rfl

/-- C5: every registered builtin is total and signals misuse with an Error
object: wrong arity yields an Error for `len`, `first`, `last`, `rest` and
`push`; an unsupported argument type yields an Error; `puts` never fails and
returns NULL; and on an empty array `first`, `last` and `rest` return NULL
rather than reading an element (in the definitions the element accesses carry
the bound obtained from the emptiness guard, so no out-of-range read
exists). -/
theorem C5_builtins_total_error_on_misuse :
    (∀ args : List Object, args.length ≠ 1 →
      (lenFn args).isError = true ∧ (firstFn args).isError = true ∧
      (lastFn args).isError = true ∧ (restFn args).isError = true) ∧
    (∀ args : List Object, args.length ≠ 2 → (pushFn args).isError = true) ∧
    (∀ o : Object, o.isStr = false → o.isArray = false →
      (lenFn [o]).isError = true) ∧
    (∀ o : Object, o.isArray = false →
      (firstFn [o]).isError = true ∧ (lastFn [o]).isError = true ∧
      (restFn [o]).isError = true) ∧
    (∀ o x : Object, o.isArray = false → (pushFn [o, x]).isError = true) ∧
    (∀ args : List Object, putsFn args = NULL) ∧
    (firstFn [Object.array []] = NULL ∧ lastFn [Object.array []] = NULL ∧
      restFn [Object.array []] = NULL) := by
  refine ⟨?_, ?_, ?_, ?_, ?_, fun _ => rfl, rfl, rfl, rfl⟩
  · intro args hlen
    rcases args with _ | ⟨a, _ | ⟨b, t⟩⟩
    · exact ⟨rfl, rfl, rfl, rfl⟩
    · exact absurd rfl hlen
    · exact ⟨rfl, rfl, rfl, rfl⟩
  · intro args hlen
    rcases args with _ | ⟨a, _ | ⟨b, _ | ⟨c, t⟩⟩⟩
    · rfl
    · rfl
    · exact absurd rfl hlen
    · rfl
  · intro o h1 h2
    cases o <;> simp_all [lenFn, Object.isError, Object.isStr, Object.isArray]
  · intro o h1
    cases o <;>
      simp_all [firstFn, lastFn, restFn, Object.isError, Object.isArray]
  · intro o x h1
    cases o <;> simp_all [pushFn, Object.isError, Object.isArray]

/-- C5, witness: concrete arity violations, type violations, and `puts`. -/
theorem C5_builtins_witness :
    (lenFn []).isError = true ∧ (firstFn []).isError = true ∧
    (lastFn []).isError = true ∧ (restFn []).isError = true ∧
    (pushFn [Object.array []]).isError = true ∧
    (lenFn [Object.boolean true]).isError = true ∧
    (firstFn [Object.integer 3]).isError = true ∧
    (lastFn [Object.integer 3]).isError = true ∧
    (restFn [Object.integer 3]).isError = true ∧
    (pushFn [Object.nullv, Object.integer 1]).isError = true ∧
    putsFn [Object.integer 1] = NULL :=
  ⟨(C5_builtins_total_error_on_misuse.1 [] (by decide)).1,
    (C5_builtins_total_error_on_misuse.1 [] (by decide)).2.1,
    (C5_builtins_total_error_on_misuse.1 [] (by decide)).2.2.1,
    (C5_builtins_total_error_on_misuse.1 [] (by decide)).2.2.2,
    C5_builtins_total_error_on_misuse.2.1 [Object.array []] (by decide),
    C5_builtins_total_error_on_misuse.2.2.1 (Object.boolean true) rfl rfl,
    (C5_builtins_total_error_on_misuse.2.2.2.1 (Object.integer 3) rfl).1,
    (C5_builtins_total_error_on_misuse.2.2.2.1 (Object.integer 3) rfl).2.1,
    (C5_builtins_total_error_on_misuse.2.2.2.1 (Object.integer 3) rfl).2.2,
    C5_builtins_total_error_on_misuse.2.2.2.2.1 Object.nullv (Object.integer 1) rfl,
    C5_builtins_total_error_on_misuse.2.2.2.2.2.1 [Object.integer 1]⟩

/-- Sanity check: the embedded 64-bit FNV-1a agrees with the reference value
of the hash on the bytes of "hello". -/
theorem fnv1a64_hello : fnv1a64 (utf8Bytes "hello") = 11831194018420276491 := by
  decide

/-- C3: `HashKey` is a function of the object's type and value alone, so two
String objects with identical text produce the identical HashKey — the STRING
tag paired with the 64-bit FNV-1a hash of the text's bytes — and, generally,
semantically equal hashable objects produce the same HashKey. -/
theorem C3_equal_values_equal_hashkeys :
    (∀ s1 s2 : String, s1 = s2 → stringHashKey s1 = stringHashKey s2) ∧
    (∀ s : String, stringHashKey s = ⟨STRING_OBJ, fnv1a64 (utf8Bytes s)⟩) ∧
    (∀ o1 o2 : Object, o1 = o2 → hashKeyOf o1 = hashKeyOf o2) :=
  ⟨fun _ _ h => by rw [h], fun _ => rfl, fun _ _ h => by rw [h]⟩

/-- C3, witness: identical texts, and an identical hashable object, at
concrete inputs. -/
theorem C3_equal_values_equal_hashkeys_witness :
    stringHashKey "hello" = stringHashKey "hello" ∧
    stringHashKey "hello" = ⟨STRING_OBJ, fnv1a64 (utf8Bytes "hello")⟩ ∧
    hashKeyOf (Object.str "monkey") = hashKeyOf (Object.str "monkey") :=
  ⟨C3_equal_values_equal_hashkeys.1 "hello" "hello" rfl,
    C3_equal_values_equal_hashkeys.2.1 "hello",
    C3_equal_values_equal_hashkeys.2.2 (Object.str "monkey")
      (Object.str "monkey") rfl⟩

/-- C4: distinguishable Integer/Boolean values hash apart.  The
`uint64(int64)` reinterpretation is injective on the int64 range, so distinct
Integers produce distinct HashKeys; true and false map to 1 and 0; and an
Integer's HashKey always differs from a Boolean's in the type tag. -/
theorem C4_int_bool_hashkeys_distinguish :
    (∀ v1 v2 : Int, -(2 ^ 63) ≤ v1 → v1 < 2 ^ 63 → -(2 ^ 63) ≤ v2 →
      v2 < 2 ^ 63 → v1 ≠ v2 → integerHashKey v1 ≠ integerHashKey v2) ∧
    booleanHashKey true ≠ booleanHashKey false ∧
    booleanHashKey true = ⟨BOOLEAN_OBJ, 1⟩ ∧
    booleanHashKey false = ⟨BOOLEAN_OBJ, 0⟩ ∧
    (∀ (v : Int) (b : Bool),
      (integerHashKey v).objType ≠ (booleanHashKey b).objType) := by
  refine ⟨?_, by decide, rfl, rfl, ?_⟩
  · intro v1 v2 h1l h1u h2l h2u hne heq
    apply hne
    have hv : int64ToUInt64 v1 = int64ToUInt64 v2 := congrArg HashKey.value heq
    unfold int64ToUInt64 at hv
    omega
  · intro v b
    show INTEGER_OBJ ≠ BOOLEAN_OBJ
    decide

/-- C4, witness: distinct concrete int64 values, and a concrete
Integer/Boolean tag mismatch. -/
theorem C4_int_bool_hashkeys_distinguish_witness :
    integerHashKey 0 ≠ integerHashKey 1 ∧
    integerHashKey (-1) ≠ integerHashKey 1 ∧
    (integerHashKey 5).objType ≠ (booleanHashKey true).objType :=
  ⟨C4_int_bool_hashkeys_distinguish.1 0 1 (by norm_num) (by norm_num)
      (by norm_num) (by norm_num) (by norm_num),
    C4_int_bool_hashkeys_distinguish.1 (-1) 1 (by norm_num) (by norm_num)
      (by norm_num) (by norm_num) (by norm_num),
    C4_int_bool_hashkeys_distinguish.2.2.2.2 5 true⟩

/-- C10: `len` on a String returns the number of bytes of the UTF-8 encoding,
and on a string containing a multi-byte character this strictly exceeds the
character count. -/
theorem C10_len_string_counts_bytes :
    (∀ s : String, lenFn [Object.str s] = Object.integer (s.utf8ByteSize : Int)) ∧
    (∀ s : String, (∃ c ∈ s.data, 1 < c.utf8Size) → s.length < s.utf8ByteSize) := by
  refine ⟨fun _ => rfl, fun s h => ?_⟩
  rw [utf8ByteSize_eq_sum]
  exact length_lt_utf8_sum s.data h

/-- C10, witness: a concrete two-byte character makes the byte length exceed
the character count. -/
theorem C10_len_string_counts_bytes_witness :
    (∃ c ∈ ("héllo" : String).data, 1 < c.utf8Size) ∧
    ("héllo" : String).length < ("héllo" : String).utf8ByteSize ∧
    lenFn [Object.str "héllo"] =
      Object.integer (("héllo" : String).utf8ByteSize : Int) :=
  ⟨by decide, C10_len_string_counts_bytes.2 "héllo" (by decide),
    C10_len_string_counts_bytes.1 "héllo"⟩

/-- C8: for each input line the REPL parses with a parser applied to that line
alone (fresh lexer and parser); when the accumulated parser error list is
non-empty it prints the prompt and the full error report, leaves the session
environment untouched and does not evaluate — the outcome is identical under
any two evaluators; when the error list is empty it evaluates the program
against the session environment and prints the result's `Inspect` text
followed by a newline, or nothing beyond the prompt when the result is
absent; and the single session environment created once by `replStart` is
threaded through all lines in order. -/
theorem C8_repl_line (Program : Type) (parse : String → Program × List String)
    (eval eval2 : Program → Environment → Option Object × Environment)
    (st : Environment × String) (line : String) :
    ((parse line).2 ≠ [] →
      replLine parse eval st line =
        (st.1, st.2 ++ PROMPT ++ printParserErrors (parse line).2) ∧
      replLine parse eval st line = replLine parse eval2 st line) ∧
    ((parse line).2 = [] →
      replLine parse eval st line =
        ((eval (parse line).1 st.1).2,
          match (eval (parse line).1 st.1).1 with
          | some o => st.2 ++ PROMPT ++ o.inspect ++ "\n"
          | none => st.2 ++ PROMPT)) ∧
    (∀ lines : List String,
      replStart parse eval (lines ++ [line]) =
        replLine parse eval (replStart parse eval lines) line) := by
  refine ⟨fun herr => ⟨?_, ?_⟩, fun hok => ?_, fun lines => ?_⟩
  · simp [replLine, herr]
  · simp [replLine, herr]
  · rcases he : eval (parse line).1 st.1 with ⟨res, env2⟩
    cases res <;> simp [replLine, hok, he]
  · simp [replStart, List.foldl_append]

/-- C8, witness: a line with a parser error is reported and not evaluated; a
clean line is evaluated against the session environment and its result
printed with a newline; the environment threads across lines. -/
theorem C8_repl_line_witness :
    (stubParse "bad").2 ≠ [] ∧
    replLine stubParse stubEval (NewEnvironment, "") "bad" =
      ((NewEnvironment, "").1,
        (NewEnvironment, "").2 ++ PROMPT ++ printParserErrors (stubParse "bad").2) ∧
    replLine stubParse stubEval (NewEnvironment, "") "bad" =
      replLine stubParse stubEval2 (NewEnvironment, "") "bad" ∧
    (stubParse "five").2 = [] ∧
    replLine stubParse stubEval (NewEnvironment, "") "five" =
      ((stubEval (stubParse "five").1 NewEnvironment).2,
        "" ++ PROMPT ++ (Object.str "five").inspect ++ "\n") ∧
    replStart stubParse stubEval (["one"] ++ ["two"]) =
      replLine stubParse stubEval (replStart stubParse stubEval ["one"]) "two" :=
  ⟨by decide,
    ((C8_repl_line String stubParse stubEval stubEval2 (NewEnvironment, "")
        "bad").1 (by decide)).1,
    ((C8_repl_line String stubParse stubEval stubEval2 (NewEnvironment, "")
        "bad").1 (by decide)).2,
    by decide,
    (C8_repl_line String stubParse stubEval stubEval2 (NewEnvironment, "")
        "five").2.1 (by decide),
    (C8_repl_line String stubParse stubEval stubEval2 (NewEnvironment, "")
        "two").2.2 ["one"]⟩

end Monkey
